import Mathlib

/-!
Shallow embedding of the Workflow-Management-Tool core
(`app/services/workflow_service.py`, `app/services/permission_service.py`,
`app/services/auth_service.py`, `app/models/*.py`, `app/utils/enums.py`).

Python datetime values are abstracted to `Nat` timestamps (the operations
only ever stamp `datetime.now()`; they never compare times), the opaque
`metadata` dictionaries are dropped, and a raised Python exception is
modelled as `Except.error` carrying the exception message.
-/

namespace WMT

/-- `NodeStatus` from `app/utils/enums.py`. -/
inductive NodeStatus where
  | pending
  | inProgress
  | completed
  | rejected
deriving DecidableEq, Repr

/-- `Role` from `app/models/role.py`. -/
structure Role where
  id : Nat := 0
  name : String
  permissions : List String := []
deriving DecidableEq, Repr

/-- `User` from `app/models/user.py` (password/email are never read by the
modelled operations but kept for shape). -/
structure User where
  id : Nat
  email : String := ""
  username : String := ""
  password : String := ""
  roles : List Role := []
deriving DecidableEq, Repr

/-- `Node` from `app/models/workflow.py` (opaque `metadata` dropped;
timestamps are abstract `Nat`). Node `type` is a plain string in the source
model, compared against the `NodeType` enum values "INIT", "CONDITION",
"MODIFY_MESSAGE", "STORE_MESSAGE". -/
structure Node where
  id : Nat
  name : String := ""
  type : String
  description : Option String := none
  status : NodeStatus := .pending
  dependencies : List Nat := []
  assigned_user_id : Option Nat := none
  created_at : Nat := 0
  updated_at : Nat := 0
deriving DecidableEq, Repr

/-- `Workflow` from `app/models/workflow.py`. -/
structure Workflow where
  id : Nat
  name : String := ""
  description : Option String := none
  nodes : List Node := []
  owner_id : Nat
  created_at : Nat := 0
  updated_at : Nat := 0
  is_active : Bool := true
  read_roles : List String := []
  write_roles : List String := []
deriving DecidableEq, Repr

/-- `Trigger` from `app/models/trigger.py` (metadata dropped). -/
structure Trigger where
  userId : String
  type : String := "user-message"
  message : String
deriving DecidableEq, Repr

/-- A Python `dict` with `Nat` keys as an association list with unique keys:
`get` returns the value at the first matching key. -/
def dictGet {α : Type} (l : List (Nat × α)) (k : Nat) : Option α :=
  (l.find? (fun p => p.1 = k)).map (fun p => p.2)

/-- `d[k] = v` on an association-list dictionary: replace the first binding
of `k`, or append a new binding (Python dicts keep insertion order). -/
def dictSet {α : Type} : List (Nat × α) → Nat → α → List (Nat × α)
  | [], k, v => [(k, v)]
  | (k', v') :: rest, k, v =>
    if k' = k then (k, v) :: rest else (k', v') :: dictSet rest k v

/-- The `workflow_permissions_db` store of `permission_service.py`:
workflow id -> (user id -> granted capability strings). -/
abbrev Grants : Type := List (Nat × List (Nat × List String))

/-- `AuthService.get_user_by_id` (`auth_service.py`): first user with the id. -/
def getUserById (users : List User) (userId : Nat) : Option User :=
  users.find? (fun u => u.id = userId)

/-- `AuthService.validate_user_role` (`auth_service.py`): the user exists and
some role of theirs lists the required permission string. -/
def validateUserRole (users : List User) (userId : Nat) (perm : String) : Bool :=
  match getUserById users userId with
  | none => false
  | some u => u.roles.any (fun r => decide (perm ∈ r.permissions))

/-- The "admin" role seeded in `roles_db` (`auth_service.py`). -/
def roleAdmin : Role :=
  { id := 1, name := "admin", permissions := ["read", "write", "execute", "admin"] }

/-- The "user" role seeded in `roles_db` (`auth_service.py`). -/
def roleUser : Role := { id := 2, name := "user", permissions := ["read", "write"] }

/-- The "viewer" role seeded in `roles_db` (`auth_service.py`). -/
def roleViewer : Role := { id := 3, name := "viewer", permissions := ["read"] }

/-- The `roles_db` seed data of `auth_service.py`. -/
def rolesDb : List Role := [roleAdmin, roleUser, roleViewer]

/-- `WorkflowService.get_workflow_by_id` (`workflow_service.py`). -/
def getWorkflowById (wfs : List Workflow) (workflowId : Nat) : Option Workflow :=
  wfs.find? (fun w => w.id = workflowId)

/-- The explicit capability strings stored for `(workflowId, userId)`:
`workflow_permissions_db.get(workflow_id, {}).get(user_id, [])`. -/
def userGrantPerms (grants : Grants) (workflowId userId : Nat) : List String :=
  (dictGet ((dictGet grants workflowId).getD []) userId).getD []

/-- `PermissionService.check_read_permission` (`permission_service.py`):
owner, then admin role-permission, then explicit per-workflow grants. -/
def checkReadPermission (wfs : List Workflow) (users : List User)
    (grants : Grants) (userId workflowId : Nat) : Bool :=
  let ownerOk := match getWorkflowById wfs workflowId with
    | some w => decide (w.owner_id = userId)
    | none => false
  if ownerOk then true
  else if validateUserRole users userId "admin" then true
  else
    let perms := userGrantPerms grants workflowId userId
    decide ("read" ∈ perms) || decide ("write" ∈ perms)

/-- `PermissionService.check_write_permission` (`permission_service.py`). -/
def checkWritePermission (wfs : List Workflow) (users : List User)
    (grants : Grants) (userId workflowId : Nat) : Bool :=
  let ownerOk := match getWorkflowById wfs workflowId with
    | some w => decide (w.owner_id = userId)
    | none => false
  if ownerOk then true
  else if validateUserRole users userId "admin" then true
  else
    let perms := userGrantPerms grants workflowId userId
    decide ("write" ∈ perms)

/-- `PermissionService.check_execute_permission` (`permission_service.py`):
owner, admin, then the role-permission "execute" path (which defers to
`check_read_permission`), then explicit grants. -/
def checkExecutePermission (wfs : List Workflow) (users : List User)
    (grants : Grants) (userId workflowId : Nat) : Bool :=
  let ownerOk := match getWorkflowById wfs workflowId with
    | some w => decide (w.owner_id = userId)
    | none => false
  if ownerOk then true
  else if validateUserRole users userId "admin" then true
  else if validateUserRole users userId "execute" then
    checkReadPermission wfs users grants userId workflowId
  else
    let perms := userGrantPerms grants workflowId userId
    decide ("execute" ∈ perms)

/-- `PermissionService.grant_workflow_permission` (`permission_service.py`):
reject capabilities outside read/write/execute, otherwise ensure the nested
dict entries exist and append the capability if not yet present. Returns the
Python boolean result together with the updated store. -/
def grantWorkflowPermission (grants : Grants) (workflowId userId : Nat)
    (permission : String) : Bool × Grants :=
  if permission ∉ ["read", "write", "execute"] then (false, grants)
  else
    let wfMap := (dictGet grants workflowId).getD []
    let userPerms := (dictGet wfMap userId).getD []
    let userPerms' := if permission ∈ userPerms then userPerms
                      else userPerms ++ [permission]
    (true, dictSet grants workflowId (dictSet wfMap userId userPerms'))

/-- First node of the list with the given id
(`next((n for n in workflow.nodes if n.id == node_id), None)`). -/
def findNode (nodes : List Node) (nodeId : Nat) : Option Node :=
  nodes.find? (fun n => n.id = nodeId)

/-- Set the status (and update timestamp) of the first node with the given
id, leaving every other node untouched — the in-place mutation performed by
`update_node_status`. -/
def setNodeStatus : List Node → Nat → NodeStatus → Nat → List Node
  | [], _, _, _ => []
  | n :: rest, i, s, t =>
    if n.id = i then { n with status := s, updated_at := t } :: rest
    else n :: setNodeStatus rest i s t

/-- The first dependency in the list that is missing from the node list or
whose node is not COMPLETED (the first one `update_node_status` raises on). -/
def firstUnmetDep (nodes : List Node) (deps : List Nat) : Option Nat :=
  deps.find? (fun d =>
    match findNode nodes d with
    | none => true
    | some m => decide (m.status ≠ .completed))

/-- The exception message of `update_node_status`:
`f"Cannot update node status: dependency {dep_id} is not completed"`. -/
def depNotCompletedMsg (d : Nat) : String :=
  "Cannot update node status: dependency " ++ toString d ++ " is not completed"

/-- `WorkflowService.update_node_status` (`workflow_service.py`), at the level
of the found workflow's node list: returns the Python boolean (false when the
node is not found) with the updated node list, or `Except.error` for the
raised `ValueError` when the target status is not PENDING and some dependency
is missing or not COMPLETED. The raise happens before any mutation. -/
def updateNodeStatus (nodes : List Node) (nodeId : Nat) (status : NodeStatus)
    (now : Nat) : Except String (Bool × List Node) :=
  match findNode nodes nodeId with
  | none => .ok (false, nodes)
  | some node =>
    if status ≠ NodeStatus.pending then
      match firstUnmetDep nodes node.dependencies with
      | some d => .error (depNotCompletedMsg d)
      | none => .ok (true, setNodeStatus nodes nodeId status now)
    else .ok (true, setNodeStatus nodes nodeId status now)

/-- The node list a caller of `update_node_status` observes afterwards: the
updated list on success, the unchanged list when the `ValueError` was raised
(the raise precedes every mutation). -/
def applyUpdateNodeStatus (nodes : List Node) (nodeId : Nat)
    (status : NodeStatus) (now : Nat) : List Node :=
  match updateNodeStatus nodes nodeId status now with
  | .ok (_, ns) => ns
  | .error _ => nodes

/-- Replace the nodes of the first workflow with the given id (how the
engine's in-place node mutations read back into `workflows_db`). -/
def setWorkflowNodes : List Workflow → Nat → List Node → List Workflow
  | [], _, _ => []
  | w :: rest, i, ns =>
    if w.id = i then { w with nodes := ns } :: rest
    else w :: setWorkflowNodes rest i ns

/-- One entry of `execution_result["nodes_processed"]`. -/
structure ProcRec where
  node_id : Nat
  type : String
  input_message : String
  output_message : String
deriving DecidableEq, Repr

/-- One entry of `execution_result["nodes_failed"]`. -/
structure FailRec where
  node_id : Nat
  type : String
  error : String
deriving DecidableEq, Repr

/-- One entry of `execution_result["message_flow"]` (STORE_MESSAGE nodes);
the stored `userId` is the trigger's, or the executing user id rendered as a
string when there is no trigger. -/
structure FlowRec where
  node_id : Nat
  userId : String
  message : String
  stored_at : Nat
deriving DecidableEq, Repr

/-- The mutable state of one `execute_workflow` run: the live node list of
the workflow, the propagating message, the `processed_nodes` id set, and the
`execution_result` accumulators. -/
structure EngSt where
  nodes : List Node
  msg : String
  processed : List Nat
  procRecs : List ProcRec
  failRecs : List FailRec
  flow : List FlowRec
  success : Bool
deriving DecidableEq, Repr

/-- The full `execution_result` dictionary built by `execute_workflow`.
`final_message` is `none` on the INIT-failure return path, where the Python
dict is returned without the `final_message` key ever being set. -/
structure ExecResult where
  workflow_id : Nat
  executed_by : Nat
  execution_time : Nat
  trigger : Option Trigger
  nodes_processed : List ProcRec
  nodes_failed : List FailRec
  message_flow : List FlowRec
  success : Bool
  final_message : Option String
deriving DecidableEq, Repr

/-- What `execute_workflow` returns when no exception escapes: either one of
the early `{"success": False, "message": ...}` dictionaries, or the full
execution-result record. -/
inductive ExecOutcome where
  | early : String → ExecOutcome
  | result : ExecResult → ExecOutcome
deriving DecidableEq, Repr

/-- The per-type message transformation of `execute_node`: the next message
and the `message_flow` entries appended, or the raised node-type exception
(CONDITION mismatch). Unknown types pass the message through. -/
def nodeBehavior (n : Node) (trig : Option Trigger) (userId : Nat) (now : Nat)
    (msg : String) : Except String (String × List FlowRec) :=
  if n.type = "INIT" then .ok (msg, [])
  else if n.type = "CONDITION" then
    let username := match trig with
      | some t => t.userId
      | none => ""
    if username = "John" then .ok (msg, [])
    else .error ("Condition failed: username " ++ "'" ++ username ++ "'" ++ " is not " ++ "'John'")
  else if n.type = "MODIFY_MESSAGE" then .ok (msg ++ " Hello", [])
  else if n.type = "STORE_MESSAGE" then
    let storedUser := match trig with
      | some t => t.userId
      | none => toString userId
    .ok (msg, [{ node_id := n.id, userId := storedUser, message := msg, stored_at := now }])
  else .ok (msg, [])

/-- The `except` handler of `execute_node`: mark the node REJECTED (this
second `update_node_status` call can itself raise, and that exception
propagates out of `execute_workflow`), then record the failure. The
propagating message is left unchanged. -/
def execNodeFail (st : EngSt) (n : Node) (e : String) (now : Nat) :
    Except String (Bool × EngSt) :=
  match updateNodeStatus st.nodes n.id .rejected now with
  | .error e2 => .error e2
  | .ok (_, ns) =>
    .ok (false, { st with
      nodes := ns,
      failRecs := st.failRecs ++ [{ node_id := n.id, type := n.type, error := e }] })

/-- `execute_node` inside `execute_workflow`: move the node to IN_PROGRESS,
run the type-specific behavior, move it to COMPLETED, record it processed and
add it to `processed_nodes`; any exception inside the `try` falls to
`execNodeFail`. -/
def execNode (userId : Nat) (trig : Option Trigger) (now : Nat) (st : EngSt)
    (n : Node) : Except String (Bool × EngSt) :=
  match updateNodeStatus st.nodes n.id .inProgress now with
  | .error e => execNodeFail st n e now
  | .ok (_, ns1) =>
    let st1 := { st with nodes := ns1 }
    match nodeBehavior n trig userId now st1.msg with
    | .error e => execNodeFail st1 n e now
    | .ok (msg', flowNew) =>
      let st2 := { st1 with flow := st1.flow ++ flowNew }
      match updateNodeStatus st2.nodes n.id .completed now with
      | .error e => execNodeFail st2 n e now
      | .ok (_, ns2) =>
        .ok (true, { st2 with
          nodes := ns2,
          procRecs := st2.procRecs ++
            [{ node_id := n.id, type := n.type,
               input_message := st.msg, output_message := msg' }],
          processed := if n.id ∈ st2.processed then st2.processed
                       else st2.processed ++ [n.id],
          msg := msg' })

/-- One round of the scheduler: scan the remaining nodes in order; execute
each node whose dependencies are all in `processed_nodes`, removing it from
the remaining list; on a node failure set the overall success flag to false
and break out of the scan. Returns the state, the `executed_in_round` flag,
and the remaining list after the round. -/
def roundScan (userId : Nat) (trig : Option Trigger) (now : Nat) (st : EngSt) :
    List Node → Except String (EngSt × Bool × List Node)
  | [] => .ok (st, false, [])
  | n :: rest =>
    if n.dependencies.all (fun d => d ∈ st.processed) then
      match execNode userId trig now st n with
      | .error e => .error e
      | .ok (true, st') =>
        match roundScan userId trig now st' rest with
        | .error e => .error e
        | .ok (st'', _, kept) => .ok (st'', true, kept)
      | .ok (false, st') => .ok ({ st' with success := false }, true, rest)
    else
      match roundScan userId trig now st rest with
      | .error e => .error e
      | .ok (st', any, kept) => .ok (st', any, n :: kept)

/-- The `while remaining_nodes:` loop of `execute_workflow`. A round that
executes nothing marks every remaining node failed with
"Unresolvable dependencies" and the run failed. The loop removes at least one
node per continuing round, so the fuel `remaining.length + 1` supplied by
`executeWorkflow` is never exhausted (the error is unreachable). -/
def runRounds (userId : Nat) (trig : Option Trigger) (now : Nat) :
    Nat → EngSt → List Node → Except String EngSt
  | _, st, [] => .ok st
  | 0, _, _ :: _ => .error "unreachable: fuel exhausted"
  | fuel + 1, st, rem@(_ :: _) =>
    match roundScan userId trig now st rem with
    | .error e => .error e
    | .ok (st', any, kept) =>
      if any then runRounds userId trig now fuel st' kept
      else
        .ok { st' with
          failRecs := st'.failRecs ++ kept.map (fun n =>
            { node_id := n.id, type := n.type, error := "Unresolvable dependencies" }),
          success := false }

/-- The per-node phase of `execute_workflow`: run the INIT node on the fresh
state, then the round loop over the remaining nodes, and assemble the
execution-result record (the INIT-failure return leaves `final_message`
unset). The second component is the final `workflows_db`. -/
def runEngine (wfs : List Workflow) (workflowId userId : Nat)
    (trig : Option Trigger) (now : Nat) (st0 : EngSt) (initNode : Node) :
    Except String (ExecOutcome × List Workflow) :=
  match execNode userId trig now st0 initNode with
  | .error e => .error e
  | .ok (false, st1) =>
    .ok (.result
      { workflow_id := workflowId, executed_by := userId,
        execution_time := now, trigger := trig,
        nodes_processed := st1.procRecs, nodes_failed := st1.failRecs,
        message_flow := st1.flow, success := false,
        final_message := none },
      setWorkflowNodes wfs workflowId st1.nodes)
  | .ok (true, st1) =>
    let rem := st1.nodes.filter (fun n => n.id ≠ initNode.id)
    match runRounds userId trig now (rem.length + 1) st1 rem with
    | .error e => .error e
    | .ok st2 =>
      .ok (.result
        { workflow_id := workflowId, executed_by := userId,
          execution_time := now, trigger := trig,
          nodes_processed := st2.procRecs, nodes_failed := st2.failRecs,
          message_flow := st2.flow, success := st2.success,
          final_message := some st2.msg },
        setWorkflowNodes wfs workflowId st2.nodes)

/-- `WorkflowService.execute_workflow` (`workflow_service.py`): lookup,
permission check, active check, INIT-count structural validation, then the
per-node phase (`runEngine`). The second component is the final
`workflows_db` (the engine mutates the found workflow's nodes in place).
`Except.error` is a Python exception escaping the call. -/
def executeWorkflow (wfs : List Workflow) (users : List User) (grants : Grants)
    (workflowId userId : Nat) (trig : Option Trigger) (now : Nat) :
    Except String (ExecOutcome × List Workflow) :=
  match getWorkflowById wfs workflowId with
  | none => .ok (.early "Workflow not found", wfs)
  | some wf =>
    if ¬ checkWritePermission wfs users grants userId workflowId then
      .ok (.early "User does not have permission to execute this workflow", wfs)
    else if ¬ wf.is_active then
      .ok (.early "Workflow is not active", wfs)
    else
      match wf.nodes.filter (fun n => n.type = "INIT") with
      | [] => .ok (.early "No INIT node found in workflow", wfs)
      | initNode :: [] =>
        let st0 : EngSt :=
          { nodes := wf.nodes,
            msg := match trig with
              | some t => t.message
              | none => "",
            processed := [], procRecs := [], failRecs := [], flow := [],
            success := true }
        runEngine wfs workflowId userId trig now st0 initNode
      | _ :: _ :: _ =>
        .ok (.early "Multiple INIT nodes found - only one allowed", wfs)

/-- Projection: the full execution-result record of an engine call, when the
call returned one (no exception, no early return). -/
def execResultOf (x : Except String (ExecOutcome × List Workflow)) :
    Option ExecResult :=
  match x with
  | .ok (.result r, _) => some r
  | _ => none

/-- Projection: the node list of the given workflow in the final database of
an engine call that returned (no exception). -/
def finalNodesOf (workflowId : Nat)
    (x : Except String (ExecOutcome × List Workflow)) : Option (List Node) :=
  match x with
  | .ok (_, wfs2) => (getWorkflowById wfs2 workflowId).map Workflow.nodes
  | .error _ => none

/-! ### Concrete instances used by claim witnesses and counterexamples -/

/-- A workflow whose role sets name "Category Manager" (the role-based rule
the spec describes), owned by user 1. -/
def wfC1 : Workflow :=
  { id := 1, name := "wf", owner_id := 1,
    read_roles := ["Category Manager"], write_roles := ["Category Manager"] }

/-- An actor holding a role literally named "Category Manager" (with no
permission strings), who is neither owner nor admin. -/
def actorC1 : User :=
  { id := 2, username := "cm", roles := [{ name := "Category Manager" }] }

/-- The user table of `tests/test_permissions.py::setup_method`: the default
admin (id 1, role "admin") and a regular user (id 2, role "user"). -/
def usersC2 : List User :=
  [ { id := 1, email := "admin@example.com", username := "admin",
      password := "admin123", roles := [roleAdmin] },
    { id := 2, email := "user@example.com", username := "user",
      password := "user123", roles := [roleUser] } ]

/-- Workflow 1 owned by user 1
(`test_execute_permission_requires_read_access`). -/
def wfC2 : Workflow := { id := 1, name := "Execute Permission Test", owner_id := 1 }

/-- The grant store after `grant_workflow_permission(workflow.id, 2, "execute")`
with no other grants, exactly as in the failing repository test. -/
def grantsC2 : Grants := (grantWorkflowPermission [] 1 2 "execute").2

/-- A single COMPLETED node with no dependencies. -/
def nodeC3 : Node := { id := 1, name := "done", type := "GENERIC", status := .completed }

/-- Node list holding only `nodeC3`. -/
def nodesC3 : List Node := [nodeC3]

/-- A workflow whose INIT node (id 2) depends on a still-PENDING GENERIC node
(id 1): executing it makes the INIT rejection-marking raise. -/
def wfC4 : Workflow :=
  { id := 1, name := "init-with-dep", owner_id := 7,
    nodes := [ { id := 1, name := "g", type := "GENERIC" },
               { id := 2, name := "init", type := "INIT", dependencies := [1] } ] }

/-- Database holding only `wfC4`. -/
def wfsC4 : List Workflow := [wfC4]

/-- Scenario-D shape with a GENERIC middle node: INIT (id 1), node A (id 2,
GENERIC, depends on INIT, already REJECTED before the run), node B (id 3,
depends on A). -/
def wfC5 : Workflow :=
  { id := 1, name := "scenario-d", owner_id := 7,
    nodes := [ { id := 1, name := "init", type := "INIT" },
               { id := 2, name := "a", type := "GENERIC",
                 dependencies := [1], status := .rejected },
               { id := 3, name := "b", type := "GENERIC", dependencies := [2] } ] }

/-- Database holding only `wfC5`. -/
def wfsC5 : List Workflow := [wfC5]

/-- Scenario-D shape whose middle node A is a CONDITION node (so its
re-execution fails again whenever the trigger user is not "John"). -/
def wfC5b : Workflow :=
  { id := 1, name := "scenario-d-cond", owner_id := 7,
    nodes := [ { id := 1, name := "init", type := "INIT" },
               { id := 2, name := "a", type := "CONDITION",
                 dependencies := [1], status := .rejected },
               { id := 3, name := "b", type := "GENERIC", dependencies := [2] } ] }

/-- Database holding only `wfC5b`. -/
def wfsC5b : List Workflow := [wfC5b]

/-- Scenario-A shape: INIT (id 1) and a MODIFY_MESSAGE node (id 2) depending
on it, owned by user 7. -/
def wfC6 : Workflow :=
  { id := 1, name := "scenario-a", owner_id := 7,
    nodes := [ { id := 1, name := "init", type := "INIT" },
               { id := 2, name := "modify", type := "MODIFY_MESSAGE",
                 dependencies := [1] } ] }

/-- Database holding only `wfC6`. -/
def wfsC6 : List Workflow := [wfC6]

/-- A workflow with two INIT-typed nodes (Scenario C), owned by user 7. -/
def wfC7 : Workflow :=
  { id := 1, name := "scenario-c", owner_id := 7,
    nodes := [ { id := 1, name := "init1", type := "INIT" },
               { id := 2, name := "init2", type := "INIT" } ] }

/-- Database holding only `wfC7`. -/
def wfsC7 : List Workflow := [wfC7]

/-- A minimal well-formed workflow: a single INIT node, owned by user 7. -/
def wfC9 : Workflow :=
  { id := 1, name := "tiny", owner_id := 7,
    nodes := [ { id := 1, name := "init", type := "INIT" } ] }

/-- Database holding only `wfC9`. -/
def wfsC9 : List Workflow := [wfC9]

/-- A still-PENDING dependency node. -/
def nodeC8a : Node := { id := 1, name := "dep", type := "GENERIC" }

/-- A node depending on the still-PENDING node 1. -/
def nodeC8b : Node := { id := 2, name := "blocked", type := "GENERIC", dependencies := [1] }

/-- A two-node node list where node 2 depends on the still-PENDING node 1. -/
def nodesC8 : List Node := [nodeC8a, nodeC8b]

/-- The execution result of running `wfC9` (single INIT node) by its owner
with no trigger at time 0. -/
def rC9 : ExecResult :=
  { workflow_id := 1, executed_by := 7, execution_time := 0, trigger := none,
    nodes_processed :=
      [ { node_id := 1, type := "INIT", input_message := "", output_message := "" } ],
    nodes_failed := [], message_flow := [], success := true,
    final_message := some "" }

/-- The success flag of an engine state agrees with emptiness of its
failed-node list (the invariant behind claim C9). -/
def stOk (st : EngSt) : Prop := st.success = true ↔ st.failRecs = []

/-- The scheduler invariant behind claim C4: every processed id resolves to
a COMPLETED node; remaining nodes are unprocessed, resolve in the live node
list with their own dependency lists, and carry pairwise distinct ids. -/
def EngInv (st : EngSt) (rem : List Node) : Prop :=
  (∀ i ∈ st.processed, ∃ m, findNode st.nodes i = some m ∧ m.status = .completed)
  ∧ (∀ n ∈ rem, n.id ∉ st.processed)
  ∧ (∀ n ∈ rem, ∃ m, findNode st.nodes n.id = some m
      ∧ m.dependencies = n.dependencies)
  ∧ (rem.map Node.id).Nodup

/-! ## Helper lemmas -/

theorem dictGet_cons_eq {α : Type} (a : Nat) (b : α) (rest : List (Nat × α)) :
    dictGet ((a, b) :: rest) a = some b := by
  simp [dictGet, List.find?_cons]

theorem dictGet_cons_ne {α : Type} (a k : Nat) (b : α) (rest : List (Nat × α))
    (h : a ≠ k) : dictGet ((a, b) :: rest) k = dictGet rest k := by
  simp [dictGet, List.find?_cons, h]

theorem dictGet_dictSet_self {α : Type} (l : List (Nat × α)) (k : Nat) (v : α) :
    dictGet (dictSet l k v) k = some v := by
  induction l with
  | nil => simp [dictGet, dictSet]
  | cons p rest ih =>
    obtain ⟨a, b⟩ := p
    by_cases h : a = k
    · simp only [dictSet, if_pos h]
      exact dictGet_cons_eq k v rest
    · simp only [dictSet, if_neg h]
      rw [dictGet_cons_ne a k b _ h]
      exact ih

theorem dictSet_get_eq {α : Type} (l : List (Nat × α)) (k : Nat) (v : α)
    (h : dictGet l k = some v) : dictSet l k v = l := by
  induction l with
  | nil => simp [dictGet] at h
  | cons p rest ih =>
    obtain ⟨a, b⟩ := p
    by_cases hk : a = k
    · subst hk
      rw [dictGet_cons_eq] at h
      have hb : b = v := Option.some.inj h
      simp [dictSet, hb]
    · rw [dictGet_cons_ne a k b rest hk] at h
      simp [dictSet, hk, ih h]

theorem findNode_setNodeStatus_ne (nodes : List Node) (i j : Nat) (s : NodeStatus)
    (t : Nat) (h : i ≠ j) :
    findNode (setNodeStatus nodes i s t) j = findNode nodes j := by
  induction nodes with
  | nil => rfl
  | cons n rest ih =>
    by_cases hn : n.id = i
    · have hj : ¬ n.id = j := by rw [hn]; exact h
      simp [setNodeStatus, hn, findNode, List.find?_cons, hj, h]
    · rcases eq_or_ne n.id j with hj | hj
      · simp [setNodeStatus, hn, findNode, List.find?_cons, hj, Ne.symm h]
      · simpa [setNodeStatus, hn, findNode, List.find?_cons, hj, Ne.symm h] using ih

theorem findNode_setNodeStatus_self (nodes : List Node) (i : Nat) (s : NodeStatus)
    (t : Nat) (m : Node) (h : findNode nodes i = some m) :
    findNode (setNodeStatus nodes i s t) i =
      some { m with status := s, updated_at := t } := by
  induction nodes with
  | nil => simp [findNode] at h
  | cons n rest ih =>
    by_cases hn : n.id = i
    · have hm : n = m := by
        simpa [findNode, List.find?_cons, hn] using h
      subst hm
      simp [setNodeStatus, hn, findNode, List.find?_cons]
    · simp [findNode, List.find?_cons, hn] at h
      simpa [setNodeStatus, hn, findNode, List.find?_cons] using ih h

theorem setNodeStatus_map_id (nodes : List Node) (i : Nat) (s : NodeStatus)
    (t : Nat) : (setNodeStatus nodes i s t).map Node.id = nodes.map Node.id := by
  induction nodes with
  | nil => rfl
  | cons n rest ih =>
    by_cases hn : n.id = i
    · simp [setNodeStatus, hn]
    · simp [setNodeStatus, hn, ih]

theorem findNode_of_mem_nodup (nodes : List Node) (n : Node) (hmem : n ∈ nodes)
    (hnd : (nodes.map Node.id).Nodup) : findNode nodes n.id = some n := by
  induction nodes with
  | nil => simp at hmem
  | cons m rest ih =>
    rcases List.mem_cons.mp hmem with hm | hm
    · subst hm; simp [findNode, List.find?_cons]
    · have hne : ¬ m.id = n.id := by
        intro he
        have : n.id ∈ rest.map Node.id := List.mem_map_of_mem Node.id hm
        rw [← he] at this
        exact (List.nodup_cons.mp hnd).1 this
      have := ih hm (List.nodup_cons.mp hnd).2
      simpa [findNode, List.find?_cons, hne] using this

theorem firstUnmetDep_eq_none (nodes : List Node) (deps : List Nat) :
    firstUnmetDep nodes deps = none ↔
      ∀ d ∈ deps, ∃ m, findNode nodes d = some m ∧ m.status = .completed := by
  unfold firstUnmetDep
  rw [List.find?_eq_none]
  constructor
  · intro h d hd
    have hp := h d hd
    cases hf : findNode nodes d with
    | none => rw [hf] at hp; simp at hp
    | some m =>
      rw [hf] at hp
      simp at hp
      exact ⟨m, rfl, hp⟩
  · intro h d hd
    obtain ⟨m, hm, hc⟩ := h d hd
    simp [hm, hc]

theorem firstUnmetDep_eq_some (nodes : List Node) (deps : List Nat) (d : Nat)
    (h : firstUnmetDep nodes deps = some d) :
    d ∈ deps ∧ ¬ ∃ m, findNode nodes d = some m ∧ m.status = .completed := by
  unfold firstUnmetDep at h
  refine ⟨List.mem_of_find?_eq_some h, ?_⟩
  have hp := List.find?_some h
  rintro ⟨m, hm, hc⟩
  rw [hm] at hp
  simp [hc] at hp

theorem updateNodeStatus_ok_of_met (nodes : List Node) (nid : Nat)
    (s : NodeStatus) (t : Nat) (m : Node) (hfind : findNode nodes nid = some m)
    (hdeps : ∀ d ∈ m.dependencies,
      ∃ k, findNode nodes d = some k ∧ k.status = .completed) :
    updateNodeStatus nodes nid s t = .ok (true, setNodeStatus nodes nid s t) := by
  have h0 := (firstUnmetDep_eq_none nodes m.dependencies).mpr hdeps
  unfold updateNodeStatus
  rw [hfind]
  by_cases hs : s = .pending
  · simp [hs]
  · simp [hs, h0]

/-! ## Claim C8: the dependency guard of update_node_status -/

/-- C8: for an existing node and a target status other than PENDING,
`update_node_status` raises an error naming the unmet dependency exactly when
some dependency is missing or not COMPLETED; on the error path the caller's
node list (status and updated timestamp included) is untouched. -/
theorem claim_C8_update_guard (nodes : List Node) (nid : Nat) (st : NodeStatus)
    (t : Nat) (n : Node) (hfind : findNode nodes nid = some n)
    (hst : st ≠ NodeStatus.pending) :
    ((∃ e, updateNodeStatus nodes nid st t = .error e) ↔
      ∃ d ∈ n.dependencies,
        ¬ ∃ m, findNode nodes d = some m ∧ m.status = .completed)
    ∧ (∀ e, updateNodeStatus nodes nid st t = .error e →
        ∃ d ∈ n.dependencies, e = depNotCompletedMsg d ∧
          ¬ ∃ m, findNode nodes d = some m ∧ m.status = .completed)
    ∧ (∀ e, updateNodeStatus nodes nid st t = .error e →
        applyUpdateNodeStatus nodes nid st t = nodes) := by
  have hbase : updateNodeStatus nodes nid st t =
      (match firstUnmetDep nodes n.dependencies with
        | some d => .error (depNotCompletedMsg d)
        | none => .ok (true, setNodeStatus nodes nid st t)) := by
    unfold updateNodeStatus
    rw [hfind]
    simp [hst]
  cases hd : firstUnmetDep nodes n.dependencies with
  | none =>
    rw [hd] at hbase
    have hmet := (firstUnmetDep_eq_none nodes n.dependencies).mp hd
    refine ⟨?_, ?_, ?_⟩
    · constructor
      · rintro ⟨e, he⟩
        rw [hbase] at he
        exact absurd he (by simp)
      · rintro ⟨d, hdep, hun⟩
        exact absurd (hmet d hdep) hun
    · intro e he
      rw [hbase] at he
      exact absurd he (by simp)
    · intro e he
      rw [hbase] at he
      exact absurd he (by simp)
  | some d =>
    rw [hd] at hbase
    obtain ⟨hdep, hun⟩ := firstUnmetDep_eq_some nodes n.dependencies d hd
    refine ⟨?_, ?_, ?_⟩
    · exact ⟨fun _ => ⟨d, hdep, hun⟩, fun _ => ⟨depNotCompletedMsg d, hbase⟩⟩
    · intro e he
      rw [hbase] at he
      refine ⟨d, hdep, ?_, hun⟩
      exact (Except.error.injEq _ _).mp he.symm
    · intro e _
      unfold applyUpdateNodeStatus
      rw [hbase]

/-- C8 witness: node 2 of `nodesC8` depends on the still-PENDING node 1, so
moving it to COMPLETED fails and changes nothing. -/
theorem claim_C8_update_guard_witness :
    (findNode nodesC8 2 = some nodeC8b ∧ NodeStatus.completed ≠ NodeStatus.pending)
    ∧ (((∃ e, updateNodeStatus nodesC8 2 NodeStatus.completed 9 = .error e) ↔
        ∃ d ∈ nodeC8b.dependencies,
          ¬ ∃ m, findNode nodesC8 d = some m ∧ m.status = .completed)
      ∧ (∀ e, updateNodeStatus nodesC8 2 NodeStatus.completed 9 = .error e →
          ∃ d ∈ nodeC8b.dependencies, e = depNotCompletedMsg d ∧
            ¬ ∃ m, findNode nodesC8 d = some m ∧ m.status = .completed)
      ∧ (∀ e, updateNodeStatus nodesC8 2 NodeStatus.completed 9 = .error e →
          applyUpdateNodeStatus nodesC8 2 NodeStatus.completed 9 = nodesC8)) :=
  ⟨⟨rfl, by decide⟩,
    claim_C8_update_guard nodesC8 2 NodeStatus.completed 9 nodeC8b rfl (by decide)⟩

/-! ## Claim C10: idempotence of grant_workflow_permission -/

/-- C10: for a valid capability, granting twice equals granting once, and
both calls return true. -/
theorem claim_C10_grant_idempotent (grants : Grants) (wfId uid : Nat)
    (perm : String) (hperm : perm ∈ (["read", "write", "execute"] : List String)) :
    (grantWorkflowPermission grants wfId uid perm).1 = true
    ∧ (grantWorkflowPermission (grantWorkflowPermission grants wfId uid perm).2
        wfId uid perm).1 = true
    ∧ (grantWorkflowPermission (grantWorkflowPermission grants wfId uid perm).2
        wfId uid perm).2 = (grantWorkflowPermission grants wfId uid perm).2 := by
  have hvalid : ¬ perm ∉ (["read", "write", "execute"] : List String) :=
    fun hcon => hcon hperm
  have hone : ∀ g : Grants, grantWorkflowPermission g wfId uid perm =
      (true, dictSet g wfId (dictSet ((dictGet g wfId).getD []) uid
        (if perm ∈ (dictGet ((dictGet g wfId).getD []) uid).getD []
          then (dictGet ((dictGet g wfId).getD []) uid).getD []
          else (dictGet ((dictGet g wfId).getD []) uid).getD [] ++ [perm]))) := by
    intro g
    unfold grantWorkflowPermission
    rw [if_neg hvalid]
  obtain ⟨A, hA⟩ : ∃ A, (dictGet grants wfId).getD [] = A := ⟨_, rfl⟩
  obtain ⟨B, hB⟩ : ∃ B, (dictGet A uid).getD [] = B := ⟨_, rfl⟩
  obtain ⟨P1, hP⟩ : ∃ P, (if perm ∈ B then B else B ++ [perm]) = P := ⟨_, rfl⟩
  have h1 : grantWorkflowPermission grants wfId uid perm =
      (true, dictSet grants wfId (dictSet A uid P1)) := by
    rw [hone grants, hA, hB, hP]
  have hmem1 : perm ∈ P1 := by
    rw [← hP]
    by_cases h : perm ∈ B
    · rwa [if_pos h]
    · rw [if_neg h]
      exact List.mem_append_right _ (List.mem_singleton.mpr rfl)
  have h2 : grantWorkflowPermission (dictSet grants wfId (dictSet A uid P1))
      wfId uid perm = (true, dictSet grants wfId (dictSet A uid P1)) := by
    rw [hone (dictSet grants wfId (dictSet A uid P1))]
    rw [dictGet_dictSet_self, Option.getD_some, dictGet_dictSet_self,
      Option.getD_some, if_pos hmem1,
      dictSet_get_eq _ _ _ (dictGet_dictSet_self _ _ _),
      dictSet_get_eq _ _ _ (dictGet_dictSet_self _ _ _)]
  refine ⟨?_, ?_, ?_⟩ <;> simp [h1, h2]

/-- C10 witness at the capability "read" on an empty store. -/
theorem claim_C10_grant_idempotent_witness :
    ("read" ∈ (["read", "write", "execute"] : List String))
    ∧ ((grantWorkflowPermission [] 1 2 "read").1 = true
      ∧ (grantWorkflowPermission (grantWorkflowPermission [] 1 2 "read").2
          1 2 "read").1 = true
      ∧ (grantWorkflowPermission (grantWorkflowPermission [] 1 2 "read").2
          1 2 "read").2 = (grantWorkflowPermission [] 1 2 "read").2) :=
  ⟨by decide, claim_C10_grant_idempotent [] 1 2 "read" (by decide)⟩

/-! ## Claim C1: role-name based workflow permissions -/

/-- C1 counterexample: an actor whose role names intersect the workflow's
`write_roles` (and `read_roles`), who is neither owner nor admin, still gets
`false` from all three permission checks — the role-name sets are never
consulted. -/
theorem claim_C1_counterexample :
    ("Category Manager" ∈ wfC1.write_roles
      ∧ "Category Manager" ∈ wfC1.read_roles
      ∧ "Category Manager" ∈ actorC1.roles.map Role.name
      ∧ wfC1.owner_id ≠ actorC1.id
      ∧ validateUserRole [actorC1] actorC1.id "admin" = false)
    ∧ checkWritePermission [wfC1] [actorC1] [] actorC1.id wfC1.id = false
    ∧ checkExecutePermission [wfC1] [actorC1] [] actorC1.id wfC1.id = false
    ∧ checkReadPermission [wfC1] [actorC1] [] actorC1.id wfC1.id = false := by
  decide

/-- C1 amended: for an actor who is neither the workflow's owner nor an
admin, the permission checks depend only on the explicit per-actor grant
store (the workflow's `read_roles`/`write_roles` never enter): write holds
iff "write" is granted, read iff "read" or "write" is granted, and execute
iff "execute" is granted — except that an actor whose role permissions
include "execute" gets the result of the read check instead. -/
theorem claim_C1_amended (wfs : List Workflow) (users : List User)
    (grants : Grants) (uid wfId : Nat) (wf : Workflow)
    (hwf : getWorkflowById wfs wfId = some wf)
    (howner : wf.owner_id ≠ uid)
    (hadmin : validateUserRole users uid "admin" = false) :
    checkWritePermission wfs users grants uid wfId =
        decide ("write" ∈ userGrantPerms grants wfId uid)
    ∧ checkReadPermission wfs users grants uid wfId =
        (decide ("read" ∈ userGrantPerms grants wfId uid)
          || decide ("write" ∈ userGrantPerms grants wfId uid))
    ∧ (validateUserRole users uid "execute" = false →
        checkExecutePermission wfs users grants uid wfId =
          decide ("execute" ∈ userGrantPerms grants wfId uid))
    ∧ (validateUserRole users uid "execute" = true →
        checkExecutePermission wfs users grants uid wfId =
          checkReadPermission wfs users grants uid wfId) := by
  refine ⟨?_, ?_, ?_, ?_⟩
  · simp [checkWritePermission, hwf, howner, hadmin]
  · simp [checkReadPermission, hwf, howner, hadmin]
  · intro hex
    simp [checkExecutePermission, hwf, howner, hadmin, hex]
  · intro hex
    simp [checkExecutePermission, checkReadPermission, hwf, howner, hadmin, hex]

/-- C1 witness: the amended statement instantiated at `wfC1`/`actorC1` with
an empty grant store. -/
theorem claim_C1_amended_witness :
    (getWorkflowById [wfC1] 1 = some wfC1 ∧ wfC1.owner_id ≠ 2
      ∧ validateUserRole [actorC1] 2 "admin" = false)
    ∧ (checkWritePermission [wfC1] [actorC1] [] 2 1 =
          decide ("write" ∈ userGrantPerms [] 1 2)
      ∧ checkReadPermission [wfC1] [actorC1] [] 2 1 =
          (decide ("read" ∈ userGrantPerms [] 1 2)
            || decide ("write" ∈ userGrantPerms [] 1 2))
      ∧ (validateUserRole [actorC1] 2 "execute" = false →
          checkExecutePermission [wfC1] [actorC1] [] 2 1 =
            decide ("execute" ∈ userGrantPerms [] 1 2))
      ∧ (validateUserRole [actorC1] 2 "execute" = true →
          checkExecutePermission [wfC1] [actorC1] [] 2 1 =
            checkReadPermission [wfC1] [actorC1] [] 2 1)) :=
  ⟨⟨by decide, by decide, by decide⟩,
    claim_C1_amended [wfC1] [actorC1] [] 2 1 wfC1 (by decide) (by decide) (by decide)⟩

/-! ## Claim C2: execute is never granted in isolation -/

/-- C2: evaluating the permission checks in exactly the setup of the
repository's own test `test_execute_permission_requires_read_access`
(admin user 1, regular user 2 with role "user", workflow 1 owned by user 1,
only an explicit "execute" grant for user 2): the code returns `true` for
execute while read and write are `false` — an isolated execute grant
suffices, contradicting both the claim and the repository's test, which
asserts `check_execute_permission(2, workflow.id) is False`. -/
theorem claim_C2_execute_isolated_eval :
    (wfC2.owner_id ≠ 2
      ∧ validateUserRole usersC2 2 "admin" = false
      ∧ userGrantPerms grantsC2 1 2 = ["execute"])
    ∧ checkExecutePermission [wfC2] usersC2 grantsC2 2 1 = true
    ∧ checkReadPermission [wfC2] usersC2 grantsC2 2 1 = false
    ∧ checkWritePermission [wfC2] usersC2 grantsC2 2 1 = false := by
  decide

/-! ## Claim C3: COMPLETED/REJECTED as terminal states -/

/-- C3 counterexample: a COMPLETED node is moved straight back to PENDING by
`update_node_status` — the call succeeds and the node is observed PENDING
afterwards. -/
theorem claim_C3_counterexample :
    (findNode nodesC3 1).map Node.status = some NodeStatus.completed
    ∧ updateNodeStatus nodesC3 1 NodeStatus.pending 5 =
        .ok (true, [{ nodeC3 with status := NodeStatus.pending, updated_at := 5 }])
    ∧ (findNode (applyUpdateNodeStatus nodesC3 1 NodeStatus.pending 5) 1).map
        Node.status = some NodeStatus.pending :=
  ⟨rfl, rfl, rfl⟩

/-- C3 amended: `update_node_status` never inspects the node's current
status, so COMPLETED and REJECTED are not terminal: any request targeting
PENDING succeeds on such a node (unconditionally — the dependency guard only
applies to non-PENDING targets) and leaves it observed PENDING. -/
theorem claim_C3_amended (nodes : List Node) (nid t : Nat) (n : Node)
    (hfind : findNode nodes nid = some n)
    (_hterm : n.status = NodeStatus.completed ∨ n.status = NodeStatus.rejected) :
    updateNodeStatus nodes nid NodeStatus.pending t =
        .ok (true, setNodeStatus nodes nid NodeStatus.pending t)
    ∧ findNode (setNodeStatus nodes nid NodeStatus.pending t) nid =
        some { n with status := NodeStatus.pending, updated_at := t } := by
  constructor
  · unfold updateNodeStatus
    rw [hfind]
    simp
  · exact findNode_setNodeStatus_self nodes nid NodeStatus.pending t n hfind

/-- C3 witness: the amended statement at the COMPLETED node `nodeC3`. -/
theorem claim_C3_amended_witness :
    (findNode nodesC3 1 = some nodeC3
      ∧ (nodeC3.status = NodeStatus.completed ∨ nodeC3.status = NodeStatus.rejected))
    ∧ (updateNodeStatus nodesC3 1 NodeStatus.pending 5 =
        .ok (true, setNodeStatus nodesC3 1 NodeStatus.pending 5)
      ∧ findNode (setNodeStatus nodesC3 1 NodeStatus.pending 5) 1 =
        some { nodeC3 with status := NodeStatus.pending, updated_at := 5 }) :=
  ⟨⟨rfl, Or.inl rfl⟩, claim_C3_amended nodesC3 1 5 nodeC3 rfl (Or.inl rfl)⟩

/-! ## Claim C7: multiple INIT nodes abort before touching any node -/

theorem getWorkflowById_setWorkflowNodes (wfs : List Workflow) (wfId : Nat)
    (ns : List Node) (wf : Workflow) (h : getWorkflowById wfs wfId = some wf) :
    getWorkflowById (setWorkflowNodes wfs wfId ns) wfId =
      some { wf with nodes := ns } := by
  induction wfs with
  | nil => simp [getWorkflowById] at h
  | cons w rest ih =>
    by_cases hw : w.id = wfId
    · have hwf : w = wf := by
        simpa [getWorkflowById, List.find?_cons, hw] using h
      subst hwf
      simp [setWorkflowNodes, hw, getWorkflowById, List.find?_cons]
    · simp [getWorkflowById, List.find?_cons, hw] at h
      simpa [setWorkflowNodes, hw, getWorkflowById, List.find?_cons] using ih h

/-- C7: on an existing, active workflow with more than one INIT-typed node,
a permitted actor's execute call returns the early failure with message
"Multiple INIT nodes found - only one allowed" and leaves the workflow
database — every node status included — unchanged. -/
theorem claim_C7_multiple_init (wfs : List Workflow) (users : List User)
    (grants : Grants) (wfId uid now : Nat) (trig : Option Trigger)
    (wf : Workflow)
    (hwf : getWorkflowById wfs wfId = some wf)
    (hperm : checkWritePermission wfs users grants uid wfId = true)
    (hactive : wf.is_active = true)
    (hmulti : 1 < (wf.nodes.filter (fun n => n.type = "INIT")).length) :
    executeWorkflow wfs users grants wfId uid trig now =
      .ok (.early "Multiple INIT nodes found - only one allowed", wfs) := by
  have hp : ¬ ¬ (checkWritePermission wfs users grants uid wfId = true) :=
    fun hc => hc hperm
  have ha : ¬ ¬ (wf.is_active = true) := fun hc => hc hactive
  unfold executeWorkflow
  rw [hwf]
  dsimp only
  rw [if_neg hp, if_neg ha]
  rcases hfil : wf.nodes.filter (fun n => n.type = "INIT") with _ | ⟨a, _ | ⟨b, l⟩⟩
  · rw [hfil] at hmulti
    simp at hmulti
  · rw [hfil] at hmulti
    simp at hmulti
  · rw [hfil]

/-- C7 witness: the two-INIT workflow `wfC7`, executed by its owner. -/
theorem claim_C7_multiple_init_witness :
    (getWorkflowById wfsC7 1 = some wfC7
      ∧ checkWritePermission wfsC7 [] [] 7 1 = true
      ∧ wfC7.is_active = true
      ∧ 1 < (wfC7.nodes.filter (fun n => n.type = "INIT")).length)
    ∧ executeWorkflow wfsC7 [] [] 1 7 none 0 =
        .ok (.early "Multiple INIT nodes found - only one allowed", wfsC7) :=
  ⟨⟨rfl, rfl, rfl, by decide⟩,
    claim_C7_multiple_init wfsC7 [] [] 1 7 0 none wfC7 rfl rfl rfl (by decide)⟩

/-! ## Claim C4: execute_workflow never raises -/

/-- C4 counterexample: on `wfC4` (whose single INIT node depends on a
still-PENDING node) the owner's execute call raises: the IN_PROGRESS update
fails the dependency guard inside the `try`, and the REJECTED update in the
`except` handler raises the same `ValueError` again, which propagates out of
`execute_workflow` instead of a result being returned. -/
theorem claim_C4_counterexample :
    executeWorkflow wfsC4 [] [] 1 7 none 0 = .error (depNotCompletedMsg 1) := by
  rfl

/-! ## Claim C5: pre-run REJECTED dependency and "Unresolvable dependencies" -/

/-- C5 counterexample: in `wfC5` (INIT; A GENERIC, REJECTED before the run,
depending on INIT; B depending on A) the run simply re-executes the REJECTED
node A: the result is a success with an empty failed-node list and all of
nodes 1, 2, 3 — B included — in the processed list, not the claimed failed
run with B marked "Unresolvable dependencies". -/
theorem claim_C5_counterexample :
    (execResultOf (executeWorkflow wfsC5 [] [] 1 7 none 0)).map
        (fun r => (r.success, r.nodes_failed,
          r.nodes_processed.map ProcRec.node_id)) =
      some (true, [], [1, 2, 3]) := by
  rfl

/-- C5 amended: the engine ignores A's pre-run REJECTED status and simply
re-executes it; B ends in the failed list with "Unresolvable dependencies"
(and the run is marked failed) exactly when A's re-execution fails again in
this run — here, A is a CONDITION node and the trigger's user is not "John",
so A is re-rejected and B is recorded "Unresolvable dependencies". -/
theorem claim_C5_amended (u msg : String) (hu : u ≠ "John") :
    (execResultOf (executeWorkflow wfsC5b [] [] 1 7
        (some { userId := u, message := msg }) 0)).map
        (fun r => (r.success, r.nodes_failed.map (fun f => (f.node_id, f.error)))) =
      some (false,
        [(2, "Condition failed: username " ++ "'" ++ u ++ "'" ++ " is not " ++ "'John'"),
         (3, "Unresolvable dependencies")]) := by
  simp [executeWorkflow, runEngine, wfsC5b, wfC5b, getWorkflowById,
    checkWritePermission, validateUserRole, getUserById, userGrantPerms,
    dictGet, execNode, execNodeFail, nodeBehavior, updateNodeStatus, findNode,
    firstUnmetDep, setNodeStatus, roundScan, runRounds, execResultOf,
    setWorkflowNodes, List.find?, List.filter, hu]

/-- C5 witness: the amended statement at the trigger user "Alice". -/
theorem claim_C5_amended_witness :
    (("Alice" : String) ≠ "John")
    ∧ (execResultOf (executeWorkflow wfsC5b [] [] 1 7
        (some { userId := "Alice", message := "m" }) 0)).map
        (fun r => (r.success, r.nodes_failed.map (fun f => (f.node_id, f.error)))) =
      some (false,
        [(2, "Condition failed: username " ++ "'" ++ "Alice" ++ "'" ++ " is not " ++ "'John'"),
         (3, "Unresolvable dependencies")]) :=
  ⟨by decide, claim_C5_amended "Alice" "m" (by decide)⟩

/-! ## Claim C6: Scenario A (INIT then MODIFY_MESSAGE on payload "Hi") -/

/-- C6: a workflow made of exactly one INIT node and one MODIFY_MESSAGE node
depending on it (in either definition order), executed by a permitted actor
on an active workflow with trigger payload "Hi", yields final message
"Hi Hello", success, an empty failed list, and both nodes COMPLETED. -/
theorem claim_C6_scenario_a (wfs : List Workflow) (users : List User)
    (grants : Grants) (wfId uid now : Nat) (wf : Workflow) (i j : Nat)
    (nm1 nm2 u : String) (s1 s2 : NodeStatus)
    (hij : i ≠ j)
    (hwf : getWorkflowById wfs wfId = some wf)
    (hnodes : wf.nodes =
        [ { id := i, name := nm1, type := "INIT", status := s1 },
          { id := j, name := nm2, type := "MODIFY_MESSAGE", status := s2,
            dependencies := [i] } ]
      ∨ wf.nodes =
        [ { id := j, name := nm2, type := "MODIFY_MESSAGE", status := s2,
            dependencies := [i] },
          { id := i, name := nm1, type := "INIT", status := s1 } ])
    (hperm : checkWritePermission wfs users grants uid wfId = true)
    (hactive : wf.is_active = true) :
    (execResultOf (executeWorkflow wfs users grants wfId uid
        (some { userId := u, message := "Hi" }) now)).map
        (fun r => (r.success, r.final_message, r.nodes_failed)) =
      some (true, some "Hi Hello", [])
    ∧ (finalNodesOf wfId (executeWorkflow wfs users grants wfId uid
        (some { userId := u, message := "Hi" }) now)).map
        (fun ns => ns.map Node.status) =
      some [NodeStatus.completed, NodeStatus.completed] := by
  have hmsg : ("Hi" : String) ++ " Hello" = "Hi Hello" := rfl
  rcases hnodes with hn | hn <;>
    constructor <;>
      simp [executeWorkflow, runEngine, hwf, hperm, hactive, hn, hij,
        Ne.symm hij, execNode, execNodeFail, nodeBehavior, updateNodeStatus,
        findNode, firstUnmetDep, setNodeStatus, roundScan, runRounds,
        execResultOf, finalNodesOf, getWorkflowById_setWorkflowNodes _ _ _ _ hwf,
        List.find?, List.filter, hmsg]

/-- C6 witness: Scenario A at the concrete workflow `wfC6`, executed by its
owner with trigger user "someone" and payload "Hi". -/
theorem claim_C6_scenario_a_witness :
    ((1 : Nat) ≠ 2
      ∧ getWorkflowById wfsC6 1 = some wfC6
      ∧ (wfC6.nodes =
          [ { id := 1, name := "init", type := "INIT", status := .pending },
            { id := 2, name := "modify", type := "MODIFY_MESSAGE",
              status := .pending, dependencies := [1] } ]
        ∨ wfC6.nodes =
          [ { id := 2, name := "modify", type := "MODIFY_MESSAGE",
              status := .pending, dependencies := [1] },
            { id := 1, name := "init", type := "INIT", status := .pending } ])
      ∧ checkWritePermission wfsC6 [] [] 7 1 = true
      ∧ wfC6.is_active = true)
    ∧ ((execResultOf (executeWorkflow wfsC6 [] [] 1 7
        (some { userId := "someone", message := "Hi" }) 0)).map
        (fun r => (r.success, r.final_message, r.nodes_failed)) =
      some (true, some "Hi Hello", [])
    ∧ (finalNodesOf 1 (executeWorkflow wfsC6 [] [] 1 7
        (some { userId := "someone", message := "Hi" }) 0)).map
        (fun ns => ns.map Node.status) =
      some [NodeStatus.completed, NodeStatus.completed]) :=
  ⟨⟨by decide, rfl, Or.inl rfl, rfl, rfl⟩,
    claim_C6_scenario_a wfsC6 [] [] 1 7 0 wfC6 1 2 "init" "modify" "someone"
      .pending .pending (by decide) rfl (Or.inl rfl) rfl rfl⟩

/-! ## Claim C9: overall success iff no failed nodes -/

theorem execNodeFail_ok (st : EngSt) (n : Node) (e : String) (now : Nat)
    (b : Bool) (st2 : EngSt) (h : execNodeFail st n e now = .ok (b, st2)) :
    b = false ∧ st2.success = st.success ∧ st2.procRecs = st.procRecs
    ∧ st2.processed = st.processed ∧ st2.msg = st.msg
    ∧ st2.failRecs = st.failRecs ++
        [{ node_id := n.id, type := n.type, error := e }] := by
  unfold execNodeFail at h
  cases h2 : updateNodeStatus st.nodes n.id .rejected now with
  | error e2 =>
    rw [h2] at h
    exact absurd h (by simp)
  | ok p =>
    obtain ⟨b2, ns⟩ := p
    rw [h2] at h
    simp only [Except.ok.injEq, Prod.mk.injEq] at h
    obtain ⟨hb, hst⟩ := h
    subst hb
    subst hst
    exact ⟨rfl, rfl, rfl, rfl, rfl, rfl⟩

theorem execNode_bookkeeping (uid : Nat) (trig : Option Trigger) (now : Nat)
    (st : EngSt) (n : Node) (b : Bool) (st2 : EngSt)
    (h : execNode uid trig now st n = .ok (b, st2)) :
    st2.success = st.success
    ∧ (b = true → st2.failRecs = st.failRecs)
    ∧ (b = false → ∃ r, st2.failRecs = st.failRecs ++ [r]) := by
  unfold execNode at h
  cases h1 : updateNodeStatus st.nodes n.id .inProgress now with
  | error e =>
    rw [h1] at h
    obtain ⟨hb, hs, _, _, _, hf⟩ := execNodeFail_ok _ _ _ _ _ _ h
    subst hb
    exact ⟨hs, by intro hc; exact absurd hc (by simp), fun _ => ⟨_, hf⟩⟩
  | ok p =>
    obtain ⟨b1, ns1⟩ := p
    rw [h1] at h
    dsimp only at h
    cases h2 : nodeBehavior n trig uid now st.msg with
    | error e =>
      rw [h2] at h
      obtain ⟨hb, hs, _, _, _, hf⟩ := execNodeFail_ok _ _ _ _ _ _ h
      subst hb
      exact ⟨hs, by intro hc; exact absurd hc (by simp), fun _ => ⟨_, hf⟩⟩
    | ok q =>
      obtain ⟨msg1, flow1⟩ := q
      rw [h2] at h
      dsimp only at h
      cases h3 : updateNodeStatus ns1 n.id .completed now with
      | error e =>
        rw [h3] at h
        obtain ⟨hb, hs, _, _, _, hf⟩ := execNodeFail_ok _ _ _ _ _ _ h
        subst hb
        exact ⟨hs, by intro hc; exact absurd hc (by simp), fun _ => ⟨_, hf⟩⟩
      | ok p2 =>
        obtain ⟨b2, ns2⟩ := p2
        rw [h3] at h
        simp only [Except.ok.injEq, Prod.mk.injEq] at h
        obtain ⟨hb, hst⟩ := h
        subst hb
        subst hst
        exact ⟨rfl, fun _ => rfl, by intro hc; exact absurd hc (by simp)⟩

theorem roundScan_stOk (uid : Nat) (trig : Option Trigger) (now : Nat) :
    ∀ (rem : List Node) (st st2 : EngSt) (any : Bool) (kept : List Node),
      stOk st → roundScan uid trig now st rem = .ok (st2, any, kept) →
      stOk st2 ∧ (any = false → kept = rem) := by
  intro rem
  induction rem with
  | nil =>
    intro st st2 any kept hok h
    unfold roundScan at h
    simp only [Except.ok.injEq, Prod.mk.injEq] at h
    obtain ⟨h1, h2, h3⟩ := h
    subst h1
    subst h2
    subst h3
    exact ⟨hok, fun _ => rfl⟩
  | cons n rest ih =>
    intro st st2 any kept hok h
    unfold roundScan at h
    by_cases hel : (n.dependencies.all fun d => decide (d ∈ st.processed)) = true
    · rw [if_pos hel] at h
      cases hx : execNode uid trig now st n with
      | error e =>
        rw [hx] at h
        exact absurd h (by simp)
      | ok p =>
        obtain ⟨b, st1⟩ := p
        rw [hx] at h
        obtain ⟨hs, hft, hff⟩ := execNode_bookkeeping _ _ _ _ _ _ _ hx
        cases b with
        | true =>
          dsimp only at h
          cases hr : roundScan uid trig now st1 rest with
          | error e =>
            rw [hr] at h
            exact absurd h (by simp)
          | ok q =>
            obtain ⟨st3, any3, kept3⟩ := q
            rw [hr] at h
            simp only [Except.ok.injEq, Prod.mk.injEq] at h
            obtain ⟨h1, h2, h3⟩ := h
            subst h1
            subst h2
            subst h3
            have hok1 : stOk st1 := by
              unfold stOk
              rw [hs, hft rfl]
              exact hok
            exact ⟨(ih st1 st3 any3 kept3 hok1 hr).1,
              fun hc => absurd hc (by simp)⟩
        | false =>
          dsimp only at h
          simp only [Except.ok.injEq, Prod.mk.injEq] at h
          obtain ⟨h1, h2, h3⟩ := h
          subst h1
          subst h2
          subst h3
          obtain ⟨r, hr⟩ := hff rfl
          refine ⟨?_, fun hc => absurd hc (by simp)⟩
          unfold stOk
          constructor
          · intro hc
            exact absurd hc (by simp)
          · intro hc
            rw [hr] at hc
            exact absurd hc (by simp)
    · rw [if_neg hel] at h
      cases hr : roundScan uid trig now st rest with
      | error e =>
        rw [hr] at h
        exact absurd h (by simp)
      | ok q =>
        obtain ⟨st3, any3, kept3⟩ := q
        rw [hr] at h
        simp only [Except.ok.injEq, Prod.mk.injEq] at h
        obtain ⟨h1, h2, h3⟩ := h
        subst h1
        subst h2
        subst h3
        obtain ⟨hok3, hkept⟩ := ih st st3 any3 kept3 hok hr
        exact ⟨hok3, fun hc => by rw [hkept hc]⟩

theorem runRounds_stOk (uid : Nat) (trig : Option Trigger) (now : Nat) :
    ∀ (fuel : Nat) (rem : List Node) (st st2 : EngSt),
      stOk st → runRounds uid trig now fuel st rem = .ok st2 → stOk st2 := by
  intro fuel
  induction fuel with
  | zero =>
    intro rem st st2 hok h
    cases rem with
    | nil =>
      unfold runRounds at h
      simp only [Except.ok.injEq] at h
      subst h
      exact hok
    | cons n rest =>
      unfold runRounds at h
      exact absurd h (by simp)
  | succ fuel ih =>
    intro rem st st2 hok h
    cases rem with
    | nil =>
      unfold runRounds at h
      simp only [Except.ok.injEq] at h
      subst h
      exact hok
    | cons n rest =>
      unfold runRounds at h
      cases hr : roundScan uid trig now st (n :: rest) with
      | error e =>
        rw [hr] at h
        exact absurd h (by simp)
      | ok q =>
        obtain ⟨st1, any, kept⟩ := q
        rw [hr] at h
        dsimp only at h
        obtain ⟨hok1, hkept⟩ := roundScan_stOk uid trig now (n :: rest)
          st st1 any kept hok hr
        cases any with
        | true =>
          rw [if_pos rfl] at h
          exact ih kept st1 st2 hok1 h
        | false =>
          rw [if_neg (by simp)] at h
          simp only [Except.ok.injEq] at h
          subst h
          unfold stOk
          rw [hkept rfl]
          constructor
          · intro hc
            exact absurd hc (by simp)
          · intro hc
            exact absurd hc (by simp)

theorem runEngine_stOk (wfs : List Workflow) (wfId uid : Nat)
    (trig : Option Trigger) (now : Nat) (st0 : EngSt) (initNode : Node)
    (r : ExecResult) (wfs2 : List Workflow) (hok : stOk st0)
    (h : runEngine wfs wfId uid trig now st0 initNode = .ok (.result r, wfs2)) :
    r.success = true ↔ r.nodes_failed = [] := by
  unfold runEngine at h
  cases hx : execNode uid trig now st0 initNode with
  | error e =>
    rw [hx] at h
    exact absurd h (by simp)
  | ok p =>
    obtain ⟨b, st1⟩ := p
    rw [hx] at h
    obtain ⟨hs, hft, hff⟩ := execNode_bookkeeping _ _ _ _ _ _ _ hx
    cases b with
    | false =>
      dsimp only at h
      simp only [Except.ok.injEq, Prod.mk.injEq, ExecOutcome.result.injEq] at h
      obtain ⟨hr, -⟩ := h
      subst hr
      obtain ⟨fr, hfr⟩ := hff rfl
      constructor
      · intro hc
        exact absurd hc (by simp)
      · intro hc
        dsimp only at hc
        rw [hfr] at hc
        exact absurd hc (by simp)
    | true =>
      dsimp only at h
      cases hrr : runRounds uid trig now
          ((st1.nodes.filter (fun n => n.id ≠ initNode.id)).length + 1) st1
          (st1.nodes.filter (fun n => n.id ≠ initNode.id)) with
      | error e =>
        rw [hrr] at h
        exact absurd h (by simp)
      | ok st2 =>
        rw [hrr] at h
        simp only [Except.ok.injEq, Prod.mk.injEq, ExecOutcome.result.injEq] at h
        obtain ⟨hr, -⟩ := h
        subst hr
        have hok1 : stOk st1 := by
          unfold stOk
          rw [hs, hft rfl]
          exact hok
        exact runRounds_stOk uid trig now _ _ st1 st2 hok1 hrr

/-- C9: whenever `execute_workflow` returns the full execution-result record
(i.e. the run reached the per-node phase and no exception escaped), the
overall success flag is true exactly when the failed-node list is empty. -/
theorem claim_C9_success_iff_no_failed (wfs : List Workflow) (users : List User)
    (grants : Grants) (wfId uid : Nat) (trig : Option Trigger) (now : Nat)
    (r : ExecResult) (wfs2 : List Workflow)
    (h : executeWorkflow wfs users grants wfId uid trig now =
      .ok (.result r, wfs2)) :
    r.success = true ↔ r.nodes_failed = [] := by
  unfold executeWorkflow at h
  cases hwf : getWorkflowById wfs wfId with
  | none =>
    rw [hwf] at h
    exact absurd h (by simp)
  | some wf =>
    rw [hwf] at h
    dsimp only at h
    by_cases hperm : ¬ (checkWritePermission wfs users grants uid wfId = true)
    · rw [if_pos hperm] at h
      exact absurd h (by simp)
    · rw [if_neg hperm] at h
      by_cases hact : ¬ (wf.is_active = true)
      · rw [if_pos hact] at h
        exact absurd h (by simp)
      · rw [if_neg hact] at h
        rcases hfil : wf.nodes.filter (fun n => n.type = "INIT")
            with _ | ⟨initNode, _ | ⟨n2, l⟩⟩
        · rw [hfil] at h
          exact absurd h (by simp)
        · rw [hfil] at h
          dsimp only at h
          exact runEngine_stOk _ _ _ _ _ _ _ _ _ (by simp [stOk]) h
        · rw [hfil] at h
          exact absurd h (by simp)

/-- C9 witness: the single-INIT workflow `wfC9` executed by its owner
produces the record `rC9`, whose success flag is true and failed list empty. -/
theorem claim_C9_success_iff_no_failed_witness :
    (executeWorkflow wfsC9 [] [] 1 7 none 0 =
      .ok (.result rC9, setWorkflowNodes wfsC9 1
        [{ id := 1, name := "init", type := "INIT", status := .completed }]))
    ∧ (rC9.success = true ↔ rC9.nodes_failed = []) :=
  ⟨rfl, claim_C9_success_iff_no_failed wfsC9 [] [] 1 7 none 0 rC9 _ rfl⟩

/-! ## Claim C4: execute_workflow never raises (amended machinery) -/

theorem execNode_ok_of_deps (uid : Nat) (trig : Option Trigger) (now : Nat)
    (st : EngSt) (n m : Node)
    (hfind : findNode st.nodes n.id = some m)
    (hdeps0 : m.dependencies = n.dependencies)
    (hdeps : ∀ d ∈ n.dependencies, d ≠ n.id ∧
      ∃ k, findNode st.nodes d = some k ∧ k.status = .completed)
    (hnp : n.id ∉ st.processed) :
    ∃ b st2, execNode uid trig now st n = .ok (b, st2)
    ∧ (∀ j, j ≠ n.id → findNode st2.nodes j = findNode st.nodes j)
    ∧ st2.nodes.map Node.id = st.nodes.map Node.id
    ∧ (b = true → st2.processed = st.processed ++ [n.id]
        ∧ ∃ k, findNode st2.nodes n.id = some k ∧ k.status = .completed)
    ∧ (b = false → st2.processed = st.processed) := by
  have hmet1 : ∀ d ∈ m.dependencies,
      ∃ k, findNode st.nodes d = some k ∧ k.status = .completed := by
    rw [hdeps0]
    exact fun d hd => (hdeps d hd).2
  have h1 : updateNodeStatus st.nodes n.id .inProgress now =
      .ok (true, setNodeStatus st.nodes n.id .inProgress now) :=
    updateNodeStatus_ok_of_met _ _ _ _ m hfind hmet1
  have hfind1 : findNode (setNodeStatus st.nodes n.id .inProgress now) n.id =
      some { m with status := .inProgress, updated_at := now } :=
    findNode_setNodeStatus_self _ _ _ _ m hfind
  have hframe1 : ∀ j, j ≠ n.id →
      findNode (setNodeStatus st.nodes n.id .inProgress now) j =
        findNode st.nodes j :=
    fun j hj => findNode_setNodeStatus_ne _ _ _ _ _ (Ne.symm hj)
  have hmet2 : ∀ d ∈ m.dependencies,
      ∃ k, findNode (setNodeStatus st.nodes n.id .inProgress now) d = some k
        ∧ k.status = .completed := by
    intro d hd
    rw [hdeps0] at hd
    obtain ⟨hdne, k, hk, hkc⟩ := hdeps d hd
    exact ⟨k, (hframe1 d hdne).symm ▸ hk, hkc⟩
  cases hbv : nodeBehavior n trig uid now st.msg with
  | error e =>
    have h2 : updateNodeStatus (setNodeStatus st.nodes n.id .inProgress now)
        n.id .rejected now =
        .ok (true, setNodeStatus (setNodeStatus st.nodes n.id .inProgress now)
          n.id .rejected now) :=
      updateNodeStatus_ok_of_met _ _ _ _ _ hfind1 hmet2
    have hrun : execNode uid trig now st n = .ok (false,
        { st with
          nodes := setNodeStatus (setNodeStatus st.nodes n.id .inProgress now)
            n.id .rejected now,
          failRecs := st.failRecs ++
            [{ node_id := n.id, type := n.type, error := e }] }) := by
      unfold execNode execNodeFail
      rw [h1]
      dsimp only
      rw [hbv]
      dsimp only
      rw [h2]
    refine ⟨false, _, hrun, ?_, ?_, ?_, ?_⟩
    · intro j hj
      dsimp only
      rw [findNode_setNodeStatus_ne _ _ _ _ _ (Ne.symm hj)]
      exact hframe1 j hj
    · dsimp only
      rw [setNodeStatus_map_id, setNodeStatus_map_id]
    · intro hc
      exact absurd hc (by simp)
    · intro _
      rfl
  | ok q =>
    obtain ⟨msg1, flow1⟩ := q
    have h2 : updateNodeStatus (setNodeStatus st.nodes n.id .inProgress now)
        n.id .completed now =
        .ok (true, setNodeStatus (setNodeStatus st.nodes n.id .inProgress now)
          n.id .completed now) :=
      updateNodeStatus_ok_of_met _ _ _ _ _ hfind1 hmet2
    have hrun : execNode uid trig now st n = .ok (true,
        { st with
          nodes := setNodeStatus (setNodeStatus st.nodes n.id .inProgress now)
            n.id .completed now,
          flow := st.flow ++ flow1,
          procRecs := st.procRecs ++
            [{ node_id := n.id, type := n.type,
               input_message := st.msg, output_message := msg1 }],
          processed := st.processed ++ [n.id],
          msg := msg1 }) := by
      unfold execNode
      rw [h1]
      dsimp only
      rw [hbv]
      dsimp only
      rw [h2]
      dsimp only
      rw [if_neg hnp]
    refine ⟨true, _, hrun, ?_, ?_, ?_, ?_⟩
    · intro j hj
      dsimp only
      rw [findNode_setNodeStatus_ne _ _ _ _ _ (Ne.symm hj)]
      exact hframe1 j hj
    · dsimp only
      rw [setNodeStatus_map_id, setNodeStatus_map_id]
    · intro _
      refine ⟨rfl, ?_⟩
      dsimp only
      rw [findNode_setNodeStatus_self _ _ _ _ _ hfind1]
      exact ⟨_, rfl, rfl⟩
    · intro hc
      exact absurd hc (by simp)

theorem roundScan_ok_of_inv (uid : Nat) (trig : Option Trigger) (now : Nat) :
    ∀ (rem : List Node) (st : EngSt), EngInv st rem →
      ∃ st2 any kept, roundScan uid trig now st rem = .ok (st2, any, kept)
        ∧ EngInv st2 kept
        ∧ (any = true → kept.length < rem.length)
        ∧ kept.length ≤ rem.length
        ∧ (∀ j, j ∉ rem.map Node.id →
            findNode st2.nodes j = findNode st.nodes j)
        ∧ (∀ i ∈ st2.processed, i ∈ st.processed ∨ i ∈ rem.map Node.id)
        ∧ kept.Sublist rem := by
  intro rem
  induction rem with
  | nil =>
    intro st hinv
    exact ⟨st, false, [], rfl, hinv, by intro hc; exact absurd hc (by simp),
      by simp, fun j _ => rfl, fun i hi => Or.inl hi, List.Sublist.refl []⟩
  | cons n rest ih =>
    intro st hinv
    obtain ⟨ha, hb, hc, hd⟩ := hinv
    have hndrest : (rest.map Node.id).Nodup := (List.nodup_cons.mp hd).2
    have hnid : n.id ∉ rest.map Node.id := (List.nodup_cons.mp hd).1
    by_cases hel : (n.dependencies.all fun d => decide (d ∈ st.processed)) = true
    · obtain ⟨m, hm, hmdeps⟩ := hc n (List.mem_cons_self n rest)
      have hnp : n.id ∉ st.processed := hb n (List.mem_cons_self n rest)
      have hdeps : ∀ d ∈ n.dependencies, d ≠ n.id ∧
          ∃ k, findNode st.nodes d = some k ∧ k.status = .completed := by
        intro d hdm
        have hdp : d ∈ st.processed :=
          of_decide_eq_true ((List.all_eq_true.mp hel) d hdm)
        exact ⟨fun he => hnp (he ▸ hdp), ha d hdp⟩
      obtain ⟨b, st1, hrun, hframe, hmapid, hbt, hbf⟩ :=
        execNode_ok_of_deps uid trig now st n m hm hmdeps hdeps hnp
      cases b with
      | true =>
        obtain ⟨hproc1, k, hk, hkc⟩ := hbt rfl
        have hinv1 : EngInv st1 rest := by
          refine ⟨?_, ?_, ?_, hndrest⟩
          · intro i hi
            rw [hproc1] at hi
            rcases List.mem_append.mp hi with hi1 | hi1
            · have hine : i ≠ n.id := fun he => hnp (he ▸ hi1)
              rw [hframe i hine]
              exact ha i hi1
            · have he : i = n.id := List.mem_singleton.mp hi1
              subst he
              exact ⟨k, hk, hkc⟩
          · intro n2 hn2
            rw [hproc1]
            intro hmem
            rcases List.mem_append.mp hmem with hmem1 | hmem1
            · exact hb n2 (List.mem_cons_of_mem n hn2) hmem1
            · have he : n2.id = n.id := List.mem_singleton.mp hmem1
              exact hnid (he ▸ List.mem_map_of_mem Node.id hn2)
          · intro n2 hn2
            have hne : n2.id ≠ n.id := fun he =>
              hnid (he ▸ List.mem_map_of_mem Node.id hn2)
            rw [hframe n2.id hne]
            exact hc n2 (List.mem_cons_of_mem n hn2)
        obtain ⟨st2, any2, kept, hscan, hinv2, _hlen1, hlen2, hframe2, hpr2, hsub⟩ :=
          ih st1 hinv1
        refine ⟨st2, true, kept, ?_, hinv2, ?_, ?_, ?_, ?_, hsub.cons n⟩
        · unfold roundScan
          rw [if_pos hel, hrun]
          dsimp only
          rw [hscan]
        · intro _
          exact Nat.lt_succ_of_le hlen2
        · exact Nat.le_succ_of_le hlen2
        · intro j hj
          rw [List.map_cons] at hj
          have hjne : j ≠ n.id := fun he => hj (he ▸ List.mem_cons_self _ _)
          have hj1 : j ∉ rest.map Node.id :=
            fun hmem => hj (List.mem_cons_of_mem _ hmem)
          rw [hframe2 j hj1, hframe j hjne]
        · intro i hi
          rcases hpr2 i hi with hi1 | hi1
          · rw [hproc1] at hi1
            rcases List.mem_append.mp hi1 with h2 | h2
            · exact Or.inl h2
            · right
              rw [List.map_cons]
              exact (List.mem_singleton.mp h2) ▸ List.mem_cons_self _ _
          · right
            rw [List.map_cons]
            exact List.mem_cons_of_mem _ hi1
      | false =>
        have hproc1 := hbf rfl
        have hinv1 : EngInv { st1 with success := false } rest := by
          refine ⟨?_, ?_, ?_, hndrest⟩
          · intro i hi
            dsimp only at hi ⊢
            rw [hproc1] at hi
            have hine : i ≠ n.id := fun he => hnp (he ▸ hi)
            rw [hframe i hine]
            exact ha i hi
          · intro n2 hn2
            dsimp only
            rw [hproc1]
            exact hb n2 (List.mem_cons_of_mem n hn2)
          · intro n2 hn2
            dsimp only
            have hne : n2.id ≠ n.id := fun he =>
              hnid (he ▸ List.mem_map_of_mem Node.id hn2)
            rw [hframe n2.id hne]
            exact hc n2 (List.mem_cons_of_mem n hn2)
        refine ⟨{ st1 with success := false }, true, rest, ?_, hinv1, ?_, ?_,
          ?_, ?_, List.Sublist.cons n (List.Sublist.refl rest)⟩
        · unfold roundScan
          rw [if_pos hel, hrun]
        · intro _
          exact Nat.lt_succ_self _
        · exact Nat.le_succ _
        · intro j hj
          rw [List.map_cons] at hj
          have hjne : j ≠ n.id := fun he => hj (he ▸ List.mem_cons_self _ _)
          dsimp only
          exact hframe j hjne
        · intro i hi
          dsimp only at hi
          rw [hproc1] at hi
          exact Or.inl hi
    · have hrest : EngInv st rest :=
        ⟨ha, fun n2 h2 => hb n2 (List.mem_cons_of_mem n h2),
          fun n2 h2 => hc n2 (List.mem_cons_of_mem n h2), hndrest⟩
      obtain ⟨st2, any2, kept, hscan, hinv2, hlen1, hlen2, hframe2, hpr2, hsub⟩ :=
        ih st hrest
      obtain ⟨ha2, hb2, hc2, hd2⟩ := hinv2
      have hfr_n : findNode st2.nodes n.id = findNode st.nodes n.id :=
        hframe2 n.id hnid
      have hinv3 : EngInv st2 (n :: kept) := by
        refine ⟨ha2, ?_, ?_, ?_⟩
        · intro n2 hn2
          rcases List.mem_cons.mp hn2 with he | hm2
          · subst he
            intro hmem
            rcases hpr2 n2.id hmem with h3 | h3
            · exact hb n2 (List.mem_cons_self _ _) h3
            · exact hnid h3
          · exact hb2 n2 hm2
        · intro n2 hn2
          rcases List.mem_cons.mp hn2 with he | hm2
          · subst he
            rw [hfr_n]
            exact hc n2 (List.mem_cons_self _ _)
          · exact hc2 n2 hm2
        · rw [List.map_cons, List.nodup_cons]
          refine ⟨?_, hd2⟩
          intro hmem
          exact hnid ((hsub.map Node.id).subset hmem)
      refine ⟨st2, any2, n :: kept, ?_, hinv3, ?_, ?_, ?_, ?_, hsub.cons₂ n⟩
      · unfold roundScan
        rw [if_neg hel, hscan]
      · intro hany
        exact Nat.succ_lt_succ (hlen1 hany)
      · exact Nat.succ_le_succ hlen2
      · intro j hj
        rw [List.map_cons] at hj
        exact hframe2 j (fun hm2 => hj (List.mem_cons_of_mem _ hm2))
      · intro i hi
        rcases hpr2 i hi with h3 | h3
        · exact Or.inl h3
        · right
          rw [List.map_cons]
          exact List.mem_cons_of_mem _ h3

theorem runRounds_ok_of_inv (uid : Nat) (trig : Option Trigger) (now : Nat) :
    ∀ (fuel : Nat) (rem : List Node) (st : EngSt),
      EngInv st rem → rem.length < fuel →
      ∃ st2, runRounds uid trig now fuel st rem = .ok st2 := by
  intro fuel
  induction fuel with
  | zero =>
    intro rem st _ hlt
    exact absurd hlt (Nat.not_lt_zero _)
  | succ fuel ih =>
    intro rem st hinv hlt
    cases rem with
    | nil => exact ⟨st, rfl⟩
    | cons n rest =>
      obtain ⟨st2, any, kept, hscan, hinv2, hlen1, hlen2, -, -, -⟩ :=
        roundScan_ok_of_inv uid trig now (n :: rest) st hinv
      cases any with
      | true =>
        have hlt2 : kept.length < fuel := by
          have h1 : kept.length < (n :: rest).length := hlen1 rfl
          have h2 : (n :: rest).length ≤ fuel := Nat.lt_succ_iff.mp hlt
          omega
        unfold runRounds
        rw [hscan]
        dsimp only
        rw [if_pos rfl]
        exact ih kept st2 hinv2 hlt2
      | false =>
        unfold runRounds
        rw [hscan]
        dsimp only
        rw [if_neg (show ¬ (false = true) by simp)]
        exact ⟨_, rfl⟩

theorem runEngine_ok_of_inv (wfs : List Workflow) (wfId uid : Nat)
    (trig : Option Trigger) (now : Nat) (st0 : EngSt) (initNode : Node)
    (hfind : findNode st0.nodes initNode.id = some initNode)
    (hdeps : ∀ d ∈ initNode.dependencies, d ≠ initNode.id ∧
      ∃ m, findNode st0.nodes d = some m ∧ m.status = .completed)
    (hproc : st0.processed = [])
    (hnd : (st0.nodes.map Node.id).Nodup) :
    ∃ out, runEngine wfs wfId uid trig now st0 initNode = .ok out := by
  have hnp : initNode.id ∉ st0.processed := by
    rw [hproc]
    exact List.not_mem_nil _
  obtain ⟨b, st1, hrun, hframe, hmapid, hbt, hbf⟩ :=
    execNode_ok_of_deps uid trig now st0 initNode initNode hfind rfl hdeps hnp
  cases b with
  | false =>
    unfold runEngine
    rw [hrun]
    exact ⟨_, rfl⟩
  | true =>
    obtain ⟨hproc1, k, hk, hkc⟩ := hbt rfl
    have hproc1b : st1.processed = [initNode.id] := by
      rw [hproc1, hproc]
      rfl
    have hndw1 : (st1.nodes.map Node.id).Nodup := by
      rw [hmapid]
      exact hnd
    have hinv1 : EngInv st1
        (st1.nodes.filter (fun n => n.id ≠ initNode.id)) := by
      refine ⟨?_, ?_, ?_, ?_⟩
      · intro i hi
        rw [hproc1b] at hi
        have he : i = initNode.id := List.mem_singleton.mp hi
        subst he
        exact ⟨k, hk, hkc⟩
      · intro n2 hn2
        have hne : n2.id ≠ initNode.id :=
          of_decide_eq_true (List.mem_filter.mp hn2).2
        rw [hproc1b]
        exact fun hmem => hne (List.mem_singleton.mp hmem)
      · intro n2 hn2
        exact ⟨n2, findNode_of_mem_nodup st1.nodes n2
          (List.mem_filter.mp hn2).1 hndw1, rfl⟩
      · exact ((List.filter_sublist _).map Node.id).nodup hndw1
    obtain ⟨st3, h3⟩ := runRounds_ok_of_inv uid trig now
      ((st1.nodes.filter (fun n => n.id ≠ initNode.id)).length + 1)
      (st1.nodes.filter (fun n => n.id ≠ initNode.id)) st1 hinv1
      (Nat.lt_succ_self _)
    unfold runEngine
    rw [hrun]
    dsimp only
    rw [h3]
    exact ⟨_, rfl⟩

/-- C4 amended: `execute_workflow` returns a structured result and never
raises, provided the workflow's node ids are unique and every dependency of
an INIT-typed node refers to a COMPLETED node other than the INIT node
itself (in particular whenever the INIT node has no dependencies). When an
INIT dependency is missing or not COMPLETED, the call instead raises the
dependency `ValueError` out of the `except` handler
(see the counterexample). -/
theorem claim_C4_amended (wfs : List Workflow) (users : List User)
    (grants : Grants) (wfId uid : Nat) (trig : Option Trigger) (now : Nat)
    (hnd : ∀ wf, getWorkflowById wfs wfId = some wf →
      (wf.nodes.map Node.id).Nodup)
    (hinit : ∀ wf, getWorkflowById wfs wfId = some wf →
      ∀ n ∈ wf.nodes, n.type = "INIT" →
        ∀ d ∈ n.dependencies, d ≠ n.id ∧
          ∃ m, findNode wf.nodes d = some m ∧ m.status = .completed) :
    ∃ out, executeWorkflow wfs users grants wfId uid trig now = .ok out := by
  unfold executeWorkflow
  cases hwf : getWorkflowById wfs wfId with
  | none => exact ⟨_, rfl⟩
  | some wf =>
    dsimp only
    by_cases hperm : ¬ (checkWritePermission wfs users grants uid wfId = true)
    · rw [if_pos hperm]
      exact ⟨_, rfl⟩
    · rw [if_neg hperm]
      by_cases hact : ¬ (wf.is_active = true)
      · rw [if_pos hact]
        exact ⟨_, rfl⟩
      · rw [if_neg hact]
        rcases hfil : wf.nodes.filter (fun n => n.type = "INIT")
            with _ | ⟨initNode, _ | ⟨x, l⟩⟩
        · rw [hfil]
          exact ⟨_, rfl⟩
        · rw [hfil]
          dsimp only
          have h0 : initNode ∈ wf.nodes.filter (fun n => n.type = "INIT") := by
            rw [hfil]
            exact List.mem_cons_self _ _
          have hmemN : initNode ∈ wf.nodes := (List.mem_filter.mp h0).1
          have htype : initNode.type = "INIT" :=
            of_decide_eq_true (List.mem_filter.mp h0).2
          have hndw := hnd wf hwf
          have hfindI : findNode wf.nodes initNode.id = some initNode :=
            findNode_of_mem_nodup wf.nodes initNode hmemN hndw
          have hdepsI := hinit wf hwf initNode hmemN htype
          exact runEngine_ok_of_inv wfs wfId uid trig now _ initNode
            hfindI hdepsI rfl hndw
        · rw [hfil]
          exact ⟨_, rfl⟩

/-- C4 witness: the amended statement at the single-INIT workflow `wfsC9`
(whose INIT node has no dependencies), executed by its owner. -/
theorem claim_C4_amended_witness :
    ((∀ wf, getWorkflowById wfsC9 1 = some wf → (wf.nodes.map Node.id).Nodup)
      ∧ (∀ wf, getWorkflowById wfsC9 1 = some wf →
          ∀ n ∈ wf.nodes, n.type = "INIT" →
            ∀ d ∈ n.dependencies, d ≠ n.id ∧
              ∃ m, findNode wf.nodes d = some m ∧ m.status = .completed))
    ∧ ∃ out, executeWorkflow wfsC9 [] [] 1 7 none 0 = .ok out := by
  have hred : getWorkflowById wfsC9 1 = some wfC9 := rfl
  have h1 : ∀ wf, getWorkflowById wfsC9 1 = some wf →
      (wf.nodes.map Node.id).Nodup := by
    intro wf hwf
    rw [hred] at hwf
    have he : wfC9 = wf := Option.some.inj hwf
    subst he
    decide
  have h2 : ∀ wf, getWorkflowById wfsC9 1 = some wf →
      ∀ n ∈ wf.nodes, n.type = "INIT" →
        ∀ d ∈ n.dependencies, d ≠ n.id ∧
          ∃ m, findNode wf.nodes d = some m ∧ m.status = .completed := by
    intro wf hwf
    rw [hred] at hwf
    have he : wfC9 = wf := Option.some.inj hwf
    subst he
    intro n hn ht d hd
    have hne : n = { id := 1, name := "init", type := "INIT" } := by
      simpa [wfC9] using hn
    subst hne
    simp at hd
  exact ⟨⟨h1, h2⟩, claim_C4_amended wfsC9 [] [] 1 7 none 0 h1 h2⟩

end WMT
